import Mathlib

/-!
Shallow embedding of the River Wayland service (`src/fabric/river/service.py`)
of the `Makesesama/fabric` repository, together with proofs about the
behaviours its specification claims.

Conventions of the embedding:
* Python arbitrary-precision integers are `Int`; Python's bitwise `&` on
  arbitrary integers is two's-complement bitwise and, which is exactly
  `Int.land` (Mathlib's definition sign-extends negative numbers, as
  Python does).
* Python `dict[int, OutputInfo]` is modelled as the partial map
  `Nat → Option OutputInfo` (dict keys are unique, so a partial map is
  the faithful view of the store).
* Wayland proxy objects returned by `registry.bind(...)` and by the
  status-manager requests are opaque handles; the model represents a
  handle by the numeric global name it was bound from (`Nat`).
* Mutation of `self`/`state` becomes explicit state passing; callbacks
  scheduled through `idle_add` are recorded as emitted events / recorded
  callback invocations.
-/

namespace RiverModel

/-! ### Bitfield codec (`River._decode_bitfields`)

The Python function accepts either a single integer or an iterable of
integers (`if not hasattr(bitfields, "__iter__"): bitfields = [bitfields]`).
That union-typed argument is the inductive `Bitfields`; `toWords` is the
wrapping step. -/

/-- The argument of `_decode_bitfields`: a single integer bitmask or an
iterable (modelled as a list) of such masks. -/
inductive Bitfields where
  | single (bits : Int)
  | ofList (words : List Int)
deriving DecidableEq

/-- The wrapping step of the source: a non-iterable single integer is
treated as the one-element sequence `[bitfields]`. -/
def Bitfields.toWords : Bitfields → List Int
  | .single bits => [bits]
  | .ofList words => words

/-- The mask `1 << i` of the source (a non-negative Python integer). -/
def tagBit (i : Nat) : Int := ((1 <<< i : Nat) : Int)

/-- The inner loop of `_decode_bitfields`: for `i in range(32)`, if
`bits & (1 << i)` is truthy (nonzero), `tags.add(i)`.  The Python `set`
is a duplicate-free list grown with `List.insert`, whose add-if-absent
behaviour is exactly `set.add`. -/
def addWordTags (bits : Int) (tags : List Nat) : List Nat :=
  (List.range 32).foldl
    (fun t i => if Int.land bits (tagBit i) ≠ 0 then t.insert i else t) tags

/-- The outer loop of `_decode_bitfields`: `for bits in bitfields`,
starting from the empty set. -/
def tagSet (words : List Int) : List Nat :=
  words.foldl (fun tags bits => addWordTags bits tags) []

/-- `River._decode_bitfields`: decode tag bitfields into `sorted(tags)`,
the ascending list of the collected set. -/
def _decode_bitfields (bitfields : Bitfields) : List Nat :=
  List.insertionSort (· ≤ ·) (tagSet bitfields.toWords)


/-! ### Data model (`OutputInfo`, `RiverEvent`)

`OutputInfo` is the dataclass of the source; the bound `WlOutput` proxy
and the status proxy are opaque handles, represented by the numeric
global name they were bound from. -/

/-- The `OutputInfo` dataclass: `status` defaults to `None` and the three
tag lists default to empty. -/
structure OutputInfo where
  name : Nat
  output : Nat
  status : Option Nat := none
  tags_view : List Nat := []
  tags_focused : List Nat := []
  tags_urgent : List Nat := []
deriving DecidableEq

/-- The `RiverEvent` frozen dataclass (payloads relevant to the claims
are numeric, so `data` is a list of naturals). -/
structure RiverEvent where
  name : String
  data : List Nat
  output_id : Option Nat := none
deriving DecidableEq

/-! ### Registry state and handlers

The thread-local `state` dict of `_river_connection_task`, holding the
output store and the bound interface handles. -/

structure RegistryState where
  outputs : Nat → Option OutputInfo
  river_status_mgr : Option Nat
  river_control : Option Nat
  seat : Option Nat
  seat_status : Option Nat

/-- The `state` dict as initialised before the first roundtrip. -/
def RegistryState.initial : RegistryState :=
  ⟨fun _ => none, none, none, none, none⟩

/-- Store (or overwrite) the record under key `n`, as Python dict item
assignment does. -/
def RegistryState.setOutput (s : RegistryState) (n : Nat) (info : OutputInfo) :
    RegistryState :=
  { s with outputs := fun m => if m = n then some info else s.outputs m }

/-- Delete the record under key `n` (`del state["outputs"][name]`). -/
def RegistryState.removeOutput (s : RegistryState) (n : Nat) : RegistryState :=
  { s with outputs := fun m => if m = n then none else s.outputs m }

/-- `handle_global`: bind the interfaces the session cares about.
`registry.bind(name, Iface, version)` returns an opaque proxy, modelled
by the global name it was bound from; unrecognised interfaces are
ignored. -/
def handle_global (s : RegistryState) (name : Nat) (iface : String)
    (version : Nat) : RegistryState :=
  if iface = "zriver_status_manager_v1" then
    { s with river_status_mgr := some name }
  else if iface = "zriver_control_v1" then
    { s with river_control := some name }
  else if iface = "wl_output" then
    s.setOutput name { name := name, output := name }
  else if iface = "wl_seat" then
    { s with seat := some name }
  else s

/-- `handle_global_remove`: if the name is a tracked output, delete its
record and emit `output_removed` (scheduled through `idle_add`, recorded
here as the returned event list); otherwise do nothing. -/
def handle_global_remove (s : RegistryState) (name : Nat) :
    RegistryState × List RiverEvent :=
  if (s.outputs name).isSome then
    (s.removeOutput name, [⟨"output_removed", [name], none⟩])
  else (s, [])

/-! ### Output status handlers

`make_view_tags_handler(output_id)` returns a closure
`handler(_, tags)` that decodes the payload, stores it on
`state["outputs"][output_id]` and schedules an event emission.  A
Python dict lookup of a missing key raises, so the model returns
`none` when no record is stored under `output_id`. -/

def make_view_tags_handler (output_id : Nat) (s : RegistryState)
    (tags : Bitfields) : Option (RegistryState × RiverEvent) :=
  match s.outputs output_id with
  | none => none
  | some info =>
    let decoded := _decode_bitfields tags
    some (s.setOutput output_id { info with tags_view := decoded },
      ⟨"view_tags", decoded, some output_id⟩)

def make_focused_tags_handler (output_id : Nat) (s : RegistryState)
    (tags : Bitfields) : Option (RegistryState × RiverEvent) :=
  match s.outputs output_id with
  | none => none
  | some info =>
    let decoded := _decode_bitfields tags
    some (s.setOutput output_id { info with tags_focused := decoded },
      ⟨"focused_tags", decoded, some output_id⟩)

def make_urgent_tags_handler (output_id : Nat) (s : RegistryState)
    (tags : Bitfields) : Option (RegistryState × RiverEvent) :=
  match s.outputs output_id with
  | none => none
  | some info =>
    let decoded := _decode_bitfields tags
    some (s.setOutput output_id { info with tags_urgent := decoded },
      ⟨"urgent_tags", decoded, some output_id⟩)

/-- Listener wiring: `get_river_seat_status` when a seat is bound, then
`get_river_output_status` for every tracked output (the per-output
status proxy is recorded on `info.status`). -/
def wireListeners (s : RegistryState) : RegistryState :=
  let s1 := if s.seat.isSome then { s with seat_status := some 0 } else s
  { s1 with outputs := fun m =>
      (s1.outputs m).map (fun info => { info with status := some info.name }) }

/-! ### The service object (`self`) and its mutations -/

structure RiverService where
  ready : Bool
  active_window_title : String
  outputs : Nat → Option OutputInfo
  river_status_mgr : Option Nat
  river_control : Option Nat
  seat : Option Nat
  seat_status : Option Nat

/-- The service state as `__init__` leaves it: `_ready = False`, empty
title, no outputs, no bound handles. -/
def RiverService.construct : RiverService :=
  ⟨false, "", fun _ => none, none, none, none, none⟩

/-- Every mutation the source performs on the service object:
`_set_ready`, the seat `focused_view` handler, the post-second-roundtrip
copy (`self.outputs.update(...)` and handle assignments), and the tag
mutations that reach `self.outputs` through the records shared with the
thread-local store. -/
inductive ServiceOp where
  | set_ready
  | focused_view (title : String)
  | copy_state (st : RegistryState)
  | view_tags (output_id : Nat) (tags : Bitfields)
  | focused_tags (output_id : Nat) (tags : Bitfields)
  | urgent_tags (output_id : Nat) (tags : Bitfields)

def ServiceOp.step (op : ServiceOp) (svc : RiverService) : RiverService :=
  match op with
  | .set_ready => { svc with ready := true }
  | .focused_view title => { svc with active_window_title := title }
  | .copy_state st =>
    { svc with
      outputs := fun m => (st.outputs m).orElse (fun _ => svc.outputs m),
      river_status_mgr := st.river_status_mgr,
      river_control := st.river_control,
      seat := st.seat,
      seat_status := st.seat_status }
  | .view_tags oid tags =>
    { svc with outputs := fun m =>
        if m = oid then Option.map (fun info => { info with tags_view := _decode_bitfields tags }) (svc.outputs m) else svc.outputs m }
  | .focused_tags oid tags =>
    { svc with outputs := fun m =>
        if m = oid then Option.map (fun info => { info with tags_focused := _decode_bitfields tags }) (svc.outputs m) else svc.outputs m }
  | .urgent_tags oid tags =>
    { svc with outputs := fun m =>
        if m = oid then Option.map (fun info => { info with tags_urgent := _decode_bitfields tags }) (svc.outputs m) else svc.outputs m }

def applyOps (ops : List ServiceOp) (svc : RiverService) : RiverService :=
  ops.foldl (fun s op => op.step s) svc

/-! ### The connection task (`_river_connection_task`)

The discovery roundtrip delivers a stream of global advertisements; the
task then checks the status manager, wires listeners, performs the
second roundtrip, copies the thread-local state onto the service and
schedules `_set_ready`. -/

/-- One `global` advertisement of the registry. -/
structure GlobalAd where
  name : Nat
  iface : String
  version : Nat
deriving DecidableEq

/-- The initial discovery roundtrip: fold `handle_global` over the
advertisement stream, starting from the fresh `state` dict. -/
def discoverGlobals (ads : List GlobalAd) : RegistryState :=
  ads.foldl (fun s ad => handle_global s ad.name ad.iface ad.version)
    RegistryState.initial

/-- Outcome of the connection task up to the dispatch loop: a clean
early return when the status manager is missing, or a running session
with the service state it produced. -/
inductive SessionResult where
  | failed_no_status_mgr
  | running (svc : RiverService)

/-- `_river_connection_task`: discovery, the fatal status-manager check
(a clean `return`, so the host process does not crash), the non-fatal
control-interface check (only a log line), listener wiring, the state
copy and `idle_add(self._set_ready)`. -/
def _river_connection_task (svc0 : RiverService) (ads : List GlobalAd) :
    SessionResult :=
  let st := discoverGlobals ads
  if st.river_status_mgr.isNone then SessionResult.failed_no_status_mgr
  else
    let st := wireListeners st
    let svc := ServiceOp.step (ServiceOp.copy_state st) svc0
    let svc := ServiceOp.step ServiceOp.set_ready svc
    SessionResult.running svc

/-! ### Command execution (`run_command` and its fallback)

The primary path appends the arguments, issues `run_command(seat)`
returning a completion object on which exactly one `success` or
`failure` event is expected, and installs the two handlers over the
mutable `result` dict.  The fallback path runs the external `riverctl`
process synchronously. -/

/-- The mutable `result` dict of `run_command`:
`{"stdout": None, "stderr": None, "success": None}`. -/
structure CmdResult where
  stdout : Option String
  stderr : Option String
  success : Option Bool
deriving DecidableEq

def CmdResult.pending : CmdResult := ⟨none, none, none⟩

/-- One scheduled invocation of the caller's callback, with the
positional arguments the source passes. -/
structure CbCall where
  succeeded : Bool
  output : Option String
  failure_message : Option String
deriving DecidableEq

/-- The events the compositor can deliver on a completion object. -/
inductive CompletionEvent where
  | success (output : String)
  | failure (failure_message : String)
deriving DecidableEq

/-- Dispatch of one completion event to the installed handlers
(`handle_success` / `handle_failure`): mutate the `result` dict and,
when a callback was supplied, schedule one invocation via `idle_add`. -/
def dispatchCompletion (hasCallback : Bool)
    (st : CmdResult × List CbCall) (ev : CompletionEvent) :
    CmdResult × List CbCall :=
  match ev with
  | .success output =>
    ({ st.1 with stdout := some output, success := some true },
      st.2 ++ (if hasCallback then [⟨true, some output, none⟩] else []))
  | .failure msg =>
    ({ st.1 with stderr := some msg, success := some false },
      st.2 ++ (if hasCallback then [⟨false, none, some msg⟩] else []))

/-- The result state and scheduled callback invocations after the
dispatch loop has delivered a sequence of events to one completion
object. -/
def processEvents (hasCallback : Bool) (events : List CompletionEvent) :
    CmdResult × List CbCall :=
  events.foldl (dispatchCompletion hasCallback) (CmdResult.pending, [])

/-- Captured outcome of an external process run. -/
structure ProcResult where
  returncode : Int
  stdout : String
  stderr : String
deriving DecidableEq

/-- Python's `str.strip()`: remove leading and trailing whitespace
characters (modelled over the string's character list). -/
def pyStrip (s : String) : String :=
  ⟨((s.data.dropWhile Char.isWhitespace).reverse.dropWhile
      Char.isWhitespace).reverse⟩

/-- `_run_command_fallback`: run `["riverctl", command, *args]`; with
`check=True` a non-zero exit raises `CalledProcessError`, which the
handler turns into `None`; otherwise return `result.stdout.strip()`. -/
def _run_command_fallback (run : List String → ProcResult)
    (command : String) (args : List String) : Option String :=
  let cmd := "riverctl" :: command :: args
  let result := run cmd
  if result.returncode = 0 then some (pyStrip result.stdout) else none

/-- A Python return value of `run_command`: `True` on the primary path,
a string or `None` from the fallback path. -/
inductive PyRet where
  | bool (b : Bool)
  | str (s : String)
  | pynone
deriving DecidableEq

/-- Everything observable about one `run_command` call: its Python
return value, whether the control interface was used, the arguments
added to the control interface, the final `result` dict (primary path
only, after `events` have been dispatched), and the scheduled callback
invocations. -/
structure RunOutcome where
  ret : PyRet
  usedControl : Bool
  sentArgs : List String
  result : Option CmdResult
  cbCalls : List CbCall

/-- `River.run_command`: if the control handle or the seat is absent,
return the fallback's value; otherwise add the command and its
arguments, issue the request, install the completion handlers and
return `True`.  `events` is the sequence of events the dispatch loop
later delivers on the completion object; `run` is the external process
used by the fallback. -/
def run_command (svc : RiverService) (run : List String → ProcResult)
    (events : List CompletionEvent) (command : String) (args : List String)
    (hasCallback : Bool) : RunOutcome :=
  if svc.river_control.isNone || svc.seat.isNone then
    { ret :=
        match _run_command_fallback run command args with
        | some s => PyRet.str s
        | none => PyRet.pynone,
      usedControl := false, sentArgs := [], result := none, cbCalls := [] }
  else
    let final := processEvents hasCallback events
    { ret := PyRet.bool true, usedControl := true,
      sentArgs := command :: args, result := some final.1,
      cbCalls := final.2 }

/-! ### Concrete states used by witnesses and counterexamples -/

/-- A registry state holding exactly one output record, bound under
global name 7. -/
def regOneOutput : RegistryState :=
  handle_global RegistryState.initial 7 "wl_output" 1

/-- A service state with a control interface and a seat bound. -/
def svcPrimary : RiverService :=
  { RiverService.construct with river_control := some 1, seat := some 2 }

/-- A service state with a seat but no control interface. -/
def svcNoControl : RiverService :=
  { RiverService.construct with seat := some 2 }

/-- External process behaviour: exit 0, printing ` ok ` with a trailing
newline. -/
def runEchoOk : List String → ProcResult := fun _ => ⟨0, " ok \n", ""⟩

/-- External process behaviour: exit 0, printing nothing. -/
def runSilent : List String → ProcResult := fun _ => ⟨0, "", ""⟩

/-- External process behaviour: exit 1 with an error message. -/
def runExitOne : List String → ProcResult := fun _ => ⟨1, "", "boom"⟩

/-! ### Theorems for the claims -/

/-! Membership characterisation of the codec's folds. -/

theorem mem_foldl_insertIf (p : Nat → Prop) [DecidablePred p]
    (l : List Nat) (t : List Nat) (x : Nat) :
    x ∈ l.foldl (fun t i => if p i then t.insert i else t) t ↔
      x ∈ t ∨ (x ∈ l ∧ p x) := by
  induction l generalizing t with
  | nil => simp
  | cons a l ih =>
    rw [List.foldl_cons, ih]
    by_cases ha : p a
    · by_cases hxa : x = a
      · subst hxa; simp [ha, List.mem_insert_iff]
      · simp [ha, hxa, List.mem_insert_iff]
    · by_cases hxa : x = a
      · subst hxa; simp [ha]
      · simp [ha, hxa]

theorem nodup_foldl_insertIf (p : Nat → Prop) [DecidablePred p]
    (l : List Nat) (t : List Nat) (ht : t.Nodup) :
    (l.foldl (fun t i => if p i then t.insert i else t) t).Nodup := by
  induction l generalizing t with
  | nil => simpa
  | cons a l ih =>
    rw [List.foldl_cons]
    by_cases ha : p a
    · simp only [ha, if_pos]
      exact ih _ ht.insert
    · simp only [ha, if_neg, not_false_iff]
      exact ih _ ht

theorem mem_addWordTags (bits : Int) (t : List Nat) (x : Nat) :
    x ∈ addWordTags bits t ↔
      x ∈ t ∨ (x < 32 ∧ Int.land bits (tagBit x) ≠ 0) := by
  unfold addWordTags
  rw [mem_foldl_insertIf (fun i => Int.land bits (tagBit i) ≠ 0)]
  simp [List.mem_range]

theorem mem_tagSet_aux (words : List Int) (t : List Nat) (x : Nat) :
    x ∈ words.foldl (fun tags bits => addWordTags bits tags) t ↔
      x ∈ t ∨ ∃ w ∈ words, x < 32 ∧ Int.land w (tagBit x) ≠ 0 := by
  induction words generalizing t with
  | nil => simp
  | cons b ws ih =>
    rw [List.foldl_cons, ih, mem_addWordTags]
    constructor
    · rintro ((h | h) | ⟨w, hw, h⟩)
      · exact Or.inl h
      · exact Or.inr ⟨b, List.mem_cons_self b ws, h⟩
      · exact Or.inr ⟨w, List.mem_cons_of_mem b hw, h⟩
    · rintro (h | ⟨w, hw, h⟩)
      · exact Or.inl (Or.inl h)
      · rcases List.mem_cons.mp hw with hwb | hws
        · exact Or.inl (Or.inr (hwb ▸ h))
        · exact Or.inr ⟨w, hws, h⟩

theorem mem_tagSet (words : List Int) (x : Nat) :
    x ∈ tagSet words ↔ ∃ w ∈ words, x < 32 ∧ Int.land w (tagBit x) ≠ 0 := by
  unfold tagSet
  rw [mem_tagSet_aux]
  simp

theorem nodup_tagSet (words : List Int) : (tagSet words).Nodup := by
  unfold tagSet
  suffices h : ∀ t : List Nat, t.Nodup →
      (words.foldl (fun tags bits => addWordTags bits tags) t).Nodup from
    h [] List.nodup_nil
  induction words with
  | nil => intro t ht; simpa
  | cons b ws ih =>
    intro t ht
    rw [List.foldl_cons]
    exact ih _ (nodup_foldl_insertIf _ _ _ ht)

/-- The truthiness test of the source, `bits & (1 << i)` nonzero, holds
exactly when bit `i` of `bits` is set in Python's two's-complement
reading, i.e. `Int.testBit`. -/
theorem land_tagBit_ne_zero (b : Int) (i : Nat) :
    Int.land b (tagBit i) ≠ 0 ↔ b.testBit i = true := by
  have htag : tagBit i = Int.ofNat (2 ^ i) := by
    simp [tagBit, Nat.one_shiftLeft]
  cases b with
  | ofNat m =>
    rw [htag]
    show Int.ofNat (m &&& 2 ^ i) ≠ 0 ↔ Nat.testBit m i = true
    rw [Nat.and_two_pow]
    cases h : m.testBit i with
    | false => simp
    | true =>
      simp only [Bool.toNat_true, Nat.one_mul]
      constructor
      · intro _; trivial
      · intro _ hz
        exact (Nat.two_pow_pos i).ne' (Int.ofNat_eq_zero.mp hz)
  | negSucc m =>
    rw [htag]
    show Int.ofNat (Nat.ldiff (2 ^ i) m) ≠ 0 ↔ (!(m.testBit i)) = true
    cases h : m.testBit i with
    | true =>
      have hzero : Nat.ldiff (2 ^ i) m = 0 := by
        apply Nat.eq_of_testBit_eq
        intro j
        rw [Nat.testBit_ldiff, Nat.zero_testBit]
        by_cases hij : i = j
        · subst hij; rw [Nat.testBit_two_pow_self, h]; rfl
        · rw [Nat.testBit_two_pow_of_ne hij]; rfl
      rw [hzero]
      simp
    | false =>
      have hbitj : Nat.testBit (Nat.ldiff (2 ^ i) m) i = true := by
        rw [Nat.testBit_ldiff, Nat.testBit_two_pow_self, h]; rfl
      constructor
      · intro _; rfl
      · intro _ hz
        rw [Int.ofNat_eq_zero.mp hz, Nat.zero_testBit] at hbitj
        simp at hbitj

/-- Full membership characterisation of the decoder: a tag index appears
in the output exactly when it is below 32 and set in some input word. -/
theorem mem_decode_bitfields (bf : Bitfields) (x : Nat) :
    x ∈ _decode_bitfields bf ↔
      x < 32 ∧ ∃ w ∈ bf.toWords, w.testBit x = true := by
  unfold _decode_bitfields
  rw [List.mem_insertionSort, mem_tagSet]
  constructor
  · rintro ⟨w, hw, hx, hne⟩
    exact ⟨hx, w, hw, (land_tagBit_ne_zero w x).mp hne⟩
  · rintro ⟨hx, w, hw, hbit⟩
    exact ⟨w, hw, hx, (land_tagBit_ne_zero w x).mpr hbit⟩

theorem decode_bitfields_nodup (bf : Bitfields) :
    (_decode_bitfields bf).Nodup :=
  ((List.perm_insertionSort _ _).nodup_iff).mpr (nodup_tagSet _)

theorem decode_bitfields_sorted (bf : Bitfields) :
    List.Sorted (· < ·) (_decode_bitfields bf) :=
  (List.sorted_insertionSort _ _).lt_of_le (decode_bitfields_nodup bf)

/-- Bits of a non-negative integer are the bits of its absolute value. -/
theorem testBit_toNat_of_nonneg (w : Int) (h : 0 ≤ w) (x : Nat) :
    w.testBit x = w.toNat.testBit x := by
  cases w with
  | ofNat n => rfl
  | negSucc n => exact absurd h (Int.negSucc_lt_zero n).not_le

/-- C2: on a single non-negative integer bitmask or a list of such masks,
`_decode_bitfields` returns the ascending, duplicate-free list of the bit
positions 0..31 set in some input word; `decode 0 = []`,
`decode 0b1011 = [0, 1, 3]`, `decode [0b1, 0b10] = [0, 1]`; a single
integer is treated as the one-element sequence; and no position at or
above 32 ever appears (the membership characterisation bounds every
element below 32). -/
theorem C2_decode_bitfields (bf : Bitfields)
    (hnn : ∀ w ∈ bf.toWords, (0 : Int) ≤ w) :
    (∀ x : Nat, x ∈ _decode_bitfields bf ↔
        x < 32 ∧ ∃ w ∈ bf.toWords, w.toNat.testBit x = true) ∧
    List.Sorted (· < ·) (_decode_bitfields bf) ∧
    (_decode_bitfields bf).Nodup ∧
    (∀ b : Int, _decode_bitfields (.single b) = _decode_bitfields (.ofList [b])) ∧
    _decode_bitfields (.single 0) = [] ∧
    _decode_bitfields (.single 11) = [0, 1, 3] ∧
    _decode_bitfields (.ofList [1, 2]) = [0, 1] := by
  refine ⟨?_, decode_bitfields_sorted bf, decode_bitfields_nodup bf,
    fun b => rfl, by decide, by decide, by decide⟩
  intro x
  rw [mem_decode_bitfields]
  constructor
  · rintro ⟨hx, w, hw, hbit⟩
    exact ⟨hx, w, hw, (testBit_toNat_of_nonneg w (hnn w hw) x).symm.trans hbit⟩
  · rintro ⟨hx, w, hw, hbit⟩
    exact ⟨hx, w, hw, (testBit_toNat_of_nonneg w (hnn w hw) x).trans hbit⟩

/-- Witness for C2 at the concrete input `[0b1, 0b10]`. -/
theorem C2_decode_bitfields_witness :
    _decode_bitfields (.ofList [1, 2]) = [0, 1] :=
  (C2_decode_bitfields (.ofList [1, 2]) (by decide)).2.2.2.2.2.2

/-- C10: `_decode_bitfields` is total over every integer input, negative
or wider than 32 bits included (the model is a total function, so the
theorem quantifies over every `Bitfields` value); every element of the
result is below 32, the result has at most 32 elements, and it is
strictly increasing. -/
theorem C10_decode_bitfields_total (bf : Bitfields) :
    (∀ x ∈ _decode_bitfields bf, x < 32) ∧
    (_decode_bitfields bf).length ≤ 32 ∧
    List.Sorted (· < ·) (_decode_bitfields bf) := by
  have hmem : ∀ x ∈ _decode_bitfields bf, x < 32 := fun x hx =>
    ((mem_decode_bitfields bf x).mp hx).1
  refine ⟨hmem, ?_, decode_bitfields_sorted bf⟩
  have hnd := decode_bitfields_nodup bf
  have hsub : (_decode_bitfields bf).toFinset ⊆ Finset.range 32 := fun x hx =>
    Finset.mem_range.mpr (hmem x (List.mem_toFinset.mp hx))
  calc (_decode_bitfields bf).length
      = (_decode_bitfields bf).toFinset.card :=
        (List.toFinset_card_of_nodup hnd).symm
    _ ≤ (Finset.range 32).card := Finset.card_le_card hsub
    _ = 32 := Finset.card_range 32

/-- Witness for C10 at the negative input `-1`, whose decode contains
bit 31 (every bit is set in two's complement). -/
theorem C10_decode_bitfields_total_witness :
    31 ∈ _decode_bitfields (.single (-1)) ∧ 31 < 32 :=
  have h31 : 31 ∈ _decode_bitfields (.single (-1)) :=
    (mem_decode_bitfields _ _).mpr ⟨by decide, ⟨-1, by decide, by decide⟩⟩
  ⟨h31, (C10_decode_bitfields_total (.single (-1))).1 31 h31⟩

/-- Scheduled callback invocations grow by exactly one per delivered
event when a callback was supplied. -/
theorem length_processEvents (events : List CompletionEvent)
    (st : CmdResult × List CbCall) :
    ((events.foldl (dispatchCompletion true) st).2).length =
      st.2.length + events.length := by
  induction events generalizing st with
  | nil => simp
  | cons ev evs ih =>
    rw [List.foldl_cons, ih]
    cases ev <;> simp [dispatchCompletion] <;> omega

/-- C1 counterexample: on the primary path, a `success("ok")` event
latches the result as succeeded with one scheduled callback, but a
subsequent spurious `failure("boom")` event on the same completion
object overwrites the latched result (succeeded flips to false) and
schedules the callback a second time, contrary to the claim. -/
theorem C1_resolve_once_counterexample :
    (run_command svcPrimary runEchoOk [CompletionEvent.success "ok"]
        "spawn" ["foot"] true).result = some ⟨some "ok", none, some true⟩ ∧
    (run_command svcPrimary runEchoOk [CompletionEvent.success "ok"]
        "spawn" ["foot"] true).cbCalls.length = 1 ∧
    (run_command svcPrimary runEchoOk
        [CompletionEvent.success "ok", CompletionEvent.failure "boom"]
        "spawn" ["foot"] true).result = some ⟨some "ok", some "boom", some false⟩ ∧
    (run_command svcPrimary runEchoOk
        [CompletionEvent.success "ok", CompletionEvent.failure "boom"]
        "spawn" ["foot"] true).cbCalls.length = 2 ∧
    ¬ ((run_command svcPrimary runEchoOk
        [CompletionEvent.success "ok", CompletionEvent.failure "boom"]
        "spawn" ["foot"] true).result =
       (run_command svcPrimary runEchoOk [CompletionEvent.success "ok"]
        "spawn" ["foot"] true).result) := by
  decide

/-- C1 amended: the completion handlers do not latch; each delivered
event overwrites the result and schedules the callback once more.  Under
the protocol guarantee that exactly one completion event is delivered,
the result does transition from pending to exactly one of
success/failure with exactly one callback invocation; but a spurious
second event overwrites the latched result and invokes the callback
again. -/
theorem C1_run_command_resolution (svc : RiverService)
    (run : List String → ProcResult) (command : String) (args : List String)
    (ev : CompletionEvent)
    (hc : svc.river_control.isSome = true) (hs : svc.seat.isSome = true) :
    (run_command svc run [] command args true).result =
      some CmdResult.pending ∧
    ((run_command svc run [ev] command args true).result =
      some (match ev with
        | .success out => ⟨some out, none, some true⟩
        | .failure msg => ⟨none, some msg, some false⟩)) ∧
    (run_command svc run [ev] command args true).cbCalls.length = 1 ∧
    (∀ out msg,
      (run_command svc run [.success out, .failure msg] command args
          true).result = some ⟨some out, some msg, some false⟩ ∧
      (run_command svc run [.success out, .failure msg] command args
          true).cbCalls.length = 2) := by
  obtain ⟨c, hc'⟩ := Option.isSome_iff_exists.mp hc
  obtain ⟨st, hs'⟩ := Option.isSome_iff_exists.mp hs
  refine ⟨?_, ?_, ?_, ?_⟩ <;>
    cases ev <;>
      simp [run_command, hc', hs', processEvents, dispatchCompletion,
        CmdResult.pending]

/-- Witness for C1 at a concrete service and a single success event. -/
theorem C1_run_command_resolution_witness :
    svcPrimary.river_control.isSome = true ∧
    svcPrimary.seat.isSome = true ∧
    (run_command svcPrimary runEchoOk [CompletionEvent.failure "bad"]
        "spawn" ["foot"] true).result = some ⟨none, some "bad", some false⟩ :=
  ⟨rfl, rfl,
    (C1_run_command_resolution svcPrimary runEchoOk "spawn" ["foot"]
      (.failure "bad") rfl rfl).2.1⟩

/-- C3: when the control handle or the seat is absent, `run_command`
routes to the external `riverctl` process, never touches the control
interface (no arguments are added to it, no completion result exists),
and returns the stripped captured standard output on exit 0, or `None`
on a non-zero exit. -/
theorem C3_run_command_fallback_path (svc : RiverService)
    (run : List String → ProcResult) (events : List CompletionEvent)
    (command : String) (args : List String) (hasCallback : Bool)
    (h : svc.river_control = none ∨ svc.seat = none) :
    (run_command svc run events command args hasCallback).usedControl =
      false ∧
    (run_command svc run events command args hasCallback).sentArgs = [] ∧
    (run_command svc run events command args hasCallback).result = none ∧
    ((run ("riverctl" :: command :: args)).returncode = 0 →
      (run_command svc run events command args hasCallback).ret =
        PyRet.str (pyStrip (run ("riverctl" :: command :: args)).stdout)) ∧
    ((run ("riverctl" :: command :: args)).returncode ≠ 0 →
      (run_command svc run events command args hasCallback).ret =
        PyRet.pynone) := by
  have hcond : (svc.river_control.isNone || svc.seat.isNone) = true := by
    rcases h with h | h <;> simp [h]
  refine ⟨?_, ?_, ?_, ?_, ?_⟩ <;>
    simp only [run_command, hcond, if_true, _run_command_fallback]
  · intro h0
    simp [h0]
  · intro h0
    simp [h0]

/-- Witness for C3 at a concrete service with no control interface,
once with a succeeding external process and once with a failing one. -/
theorem C3_run_command_fallback_path_witness :
    svcNoControl.river_control = none ∧
    (run_command svcNoControl runEchoOk [] "spawn" ["foot"]
      false).usedControl = false ∧
    (run_command svcNoControl runEchoOk [] "spawn" ["foot"] false).ret =
      PyRet.str "ok" ∧
    (run_command svcNoControl runExitOne [] "spawn" ["foot"] false).ret =
      PyRet.pynone := by
  refine ⟨rfl,
    (C3_run_command_fallback_path svcNoControl runEchoOk [] "spawn"
      ["foot"] false (Or.inl rfl)).1, ?_, ?_⟩
  · have h := (C3_run_command_fallback_path svcNoControl runEchoOk []
      "spawn" ["foot"] false (Or.inl rfl)).2.2.2.1 (by decide)
    exact h.trans (by decide)
  · exact (C3_run_command_fallback_path svcNoControl runExitOne []
      "spawn" ["foot"] false (Or.inl rfl)).2.2.2.2 (by decide)

/-- C4 counterexample: on the fallback path `run_command` does not
return a boolean at all: a succeeding external process with empty
output yields the empty string (which is not a boolean, and is even
falsy in Python although dispatch was attempted), and a failing one
yields `None`. -/
theorem C4_run_command_bool_counterexample :
    (run_command svcNoControl runSilent [] "spawn" ["foot"] false).ret =
      PyRet.str "" ∧
    PyRet.str "" ≠ PyRet.bool true ∧
    PyRet.str "" ≠ PyRet.bool false ∧
    (run_command svcNoControl runExitOne [] "spawn" ["foot"] false).ret =
      PyRet.pynone ∧
    PyRet.pynone ≠ PyRet.bool true ∧
    PyRet.pynone ≠ PyRet.bool false := by
  decide

/-- C4 amended: `run_command` returns the boolean `True` (dispatch
attempted) only on the primary control-interface path; on the fallback
path it instead returns the fallback's value — the stripped captured
standard output on success or `None` on failure — which is not a
boolean. -/
theorem C4_run_command_return_value (svc : RiverService)
    (run : List String → ProcResult) (events : List CompletionEvent)
    (command : String) (args : List String) (hasCallback : Bool) :
    (svc.river_control.isSome = true → svc.seat.isSome = true →
      (run_command svc run events command args hasCallback).ret =
        PyRet.bool true) ∧
    ((svc.river_control = none ∨ svc.seat = none) →
      ((run ("riverctl" :: command :: args)).returncode = 0 →
        (run_command svc run events command args hasCallback).ret =
          PyRet.str (pyStrip (run ("riverctl" :: command :: args)).stdout)) ∧
      ((run ("riverctl" :: command :: args)).returncode ≠ 0 →
        (run_command svc run events command args hasCallback).ret =
          PyRet.pynone)) := by
  constructor
  · intro hc hs
    obtain ⟨c, hc'⟩ := Option.isSome_iff_exists.mp hc
    obtain ⟨st, hs'⟩ := Option.isSome_iff_exists.mp hs
    simp [run_command, hc', hs']
  · intro h
    have hcond : (svc.river_control.isNone || svc.seat.isNone) = true := by
      rcases h with h | h <;> simp [h]
    constructor <;> intro h0 <;>
      simp [run_command, hcond, _run_command_fallback, h0]

/-- Witness for C4 on the primary path at a concrete service. -/
theorem C4_run_command_return_value_witness :
    svcPrimary.river_control.isSome = true ∧
    svcPrimary.seat.isSome = true ∧
    (run_command svcPrimary runEchoOk [] "spawn" ["foot"] false).ret =
      PyRet.bool true :=
  ⟨rfl, rfl,
    (C4_run_command_return_value svcPrimary runEchoOk [] "spawn" ["foot"]
      false).1 rfl rfl⟩

/-- C9: on the fallback path the caller's callback is never invoked (the
fallback is called without the callback, which has no way to fire); on
the primary path the callback is scheduled exactly once per completion
event delivered. -/
theorem C9_fallback_ignores_callback (svc : RiverService)
    (run : List String → ProcResult) (events : List CompletionEvent)
    (command : String) (args : List String)
    (h : svc.river_control = none ∨ svc.seat = none) :
    (run_command svc run events command args true).cbCalls = [] ∧
    (∀ svc2 : RiverService, svc2.river_control.isSome = true →
      svc2.seat.isSome = true →
      (run_command svc2 run events command args true).cbCalls.length =
        events.length) := by
  have hcond : (svc.river_control.isNone || svc.seat.isNone) = true := by
    rcases h with h | h <;> simp [h]
  constructor
  · simp [run_command, hcond]
  · intro svc2 hc hs
    obtain ⟨c, hc'⟩ := Option.isSome_iff_exists.mp hc
    obtain ⟨st, hs'⟩ := Option.isSome_iff_exists.mp hs
    simp only [run_command, hc', hs']
    simp [processEvents, length_processEvents]

/-- Witness for C9: with no control interface the callback list is
empty; on a bound service one success event schedules one call. -/
theorem C9_fallback_ignores_callback_witness :
    svcNoControl.river_control = none ∧
    (run_command svcNoControl runEchoOk [CompletionEvent.success "ok"]
      "spawn" ["foot"] true).cbCalls = [] ∧
    (run_command svcPrimary runEchoOk [CompletionEvent.success "ok"]
      "spawn" ["foot"] true).cbCalls.length = 1 :=
  ⟨rfl,
    (C9_fallback_ignores_callback svcNoControl runEchoOk
      [CompletionEvent.success "ok"] "spawn" ["foot"] (Or.inl rfl)).1,
    (C9_fallback_ignores_callback svcNoControl runEchoOk
      [CompletionEvent.success "ok"] "spawn" ["foot"] (Or.inl rfl)).2
      svcPrimary rfl rfl⟩

/-- Applying a mutation sequence makes `ready` true exactly when the
sequence contains `_set_ready` (or it was already true). -/
theorem ready_applyOps (ops : List ServiceOp) (svc : RiverService) :
    (applyOps ops svc).ready = true ↔
      svc.ready = true ∨ ServiceOp.set_ready ∈ ops := by
  induction ops generalizing svc with
  | nil => simp [applyOps]
  | cons op ops ih =>
    have hstep : applyOps (op :: ops) svc = applyOps ops (op.step svc) := rfl
    rw [hstep, ih]
    cases op <;> simp [ServiceOp.step, List.mem_cons]

/-- No service mutation resets `ready`. -/
theorem ready_step_mono (op : ServiceOp) (svc : RiverService)
    (h : svc.ready = true) : (op.step svc).ready = true := by
  cases op <;> simp [ServiceOp.step, h]

/-- C5: `ready` is false immediately after construction; it is true
after a mutation sequence exactly when `_set_ready` occurred in it (so
it becomes true exactly once, at the `_set_ready` scheduled after
discovery, wiring and the second roundtrip); no mutation ever resets
it; and every session the connection task leaves running is ready. -/
theorem C5_ready_transition (ops : List ServiceOp) :
    RiverService.construct.ready = false ∧
    ((applyOps ops RiverService.construct).ready = true ↔
      ServiceOp.set_ready ∈ ops) ∧
    (∀ (op : ServiceOp) (svc : RiverService), svc.ready = true →
      (op.step svc).ready = true) ∧
    (∀ (svc0 : RiverService) (ads : List GlobalAd) (svc : RiverService),
      _river_connection_task svc0 ads = SessionResult.running svc →
      svc.ready = true) := by
  refine ⟨rfl, ?_, ready_step_mono, ?_⟩
  · rw [ready_applyOps]
    simp [RiverService.construct]
  · intro svc0 ads svc h
    cases hm : (discoverGlobals ads).river_status_mgr.isNone with
    | true =>
      simp [_river_connection_task, hm] at h
    | false =>
      simp [_river_connection_task, hm] at h
      rw [← h]
      rfl

/-- Witness for C5: a sequence consisting of `_set_ready` alone flips
the freshly constructed service to ready. -/
theorem C5_ready_transition_witness :
    RiverService.construct.ready = false ∧
    (applyOps [ServiceOp.set_ready] RiverService.construct).ready = true :=
  ⟨(C5_ready_transition []).1,
    ((C5_ready_transition [ServiceOp.set_ready]).2.1).mpr (List.Mem.head _)⟩

/-- C6: a `wl_output` global advertisement with name `n` stores exactly
one record under key `n`, with no status handle and all three tag sets
empty, leaving every other key unchanged; removing a tracked name
deletes that record wholesale (other keys untouched) and emits exactly
the `output_removed` event carrying `n`; removing an untracked name
returns the state unchanged with no event. -/
theorem C6_output_lifecycle (s : RegistryState) (n : Nat) (v : Nat) :
    ((handle_global s n "wl_output" v).outputs n =
      some ⟨n, n, none, [], [], []⟩) ∧
    (∀ m, m ≠ n → (handle_global s n "wl_output" v).outputs m =
      s.outputs m) ∧
    (∀ info, s.outputs n = some info →
      (handle_global_remove s n).1.outputs n = none ∧
      (∀ m, m ≠ n → (handle_global_remove s n).1.outputs m =
        s.outputs m) ∧
      (handle_global_remove s n).2 = [⟨"output_removed", [n], none⟩]) ∧
    (s.outputs n = none → handle_global_remove s n = (s, [])) := by
  refine ⟨?_, ?_, ?_, ?_⟩
  · simp [handle_global, RegistryState.setOutput]
  · intro m hm
    simp [handle_global, RegistryState.setOutput, hm]
  · intro info hinfo
    refine ⟨?_, ?_, ?_⟩
    · simp [handle_global_remove, hinfo, RegistryState.removeOutput]
    · intro m hm
      simp [handle_global_remove, hinfo, RegistryState.removeOutput, hm]
    · simp [handle_global_remove, hinfo]
  · intro h
    simp [handle_global_remove, h]

/-- Witness for C6: add output 7 to the fresh registry, remove it, and
remove the untracked name 9. -/
theorem C6_output_lifecycle_witness :
    regOneOutput.outputs 7 = some ⟨7, 7, none, [], [], []⟩ ∧
    (handle_global_remove regOneOutput 7).1.outputs 7 = none ∧
    (handle_global_remove regOneOutput 7).2 =
      [⟨"output_removed", [7], none⟩] ∧
    handle_global_remove RegistryState.initial 9 =
      (RegistryState.initial, []) :=
  have hrem := (C6_output_lifecycle regOneOutput 7 1).2.2.1
    ⟨7, 7, none, [], [], []⟩ rfl
  ⟨(C6_output_lifecycle RegistryState.initial 7 1).1, hrem.1, hrem.2.2,
    (C6_output_lifecycle RegistryState.initial 9 1).2.2.2 rfl⟩

/-- C7: when the status manager was never advertised during discovery,
the connection task returns early with a clean failure value, never
reaching listener wiring; when it was advertised, the task runs to a
ready session regardless of the control interface, and an absent
control interface only degrades `run_command` to the fallback path. -/
theorem C7_status_manager_required (ads : List GlobalAd)
    (svc0 : RiverService) :
    ((discoverGlobals ads).river_status_mgr = none →
      _river_connection_task svc0 ads =
        SessionResult.failed_no_status_mgr) ∧
    (∀ mgr, (discoverGlobals ads).river_status_mgr = some mgr →
      ∃ svc, _river_connection_task svc0 ads = SessionResult.running svc ∧
        svc.ready = true ∧
        svc.river_control = (discoverGlobals ads).river_control ∧
        ((discoverGlobals ads).river_control = none →
          ∀ (run : List String → ProcResult)
            (events : List CompletionEvent) (command : String)
            (args : List String) (hasCallback : Bool),
            (run_command svc run events command args
              hasCallback).usedControl = false)) := by
  constructor
  · intro h
    simp [_river_connection_task, h]
  · intro mgr h
    have hwire : (wireListeners (discoverGlobals ads)).river_control =
        (discoverGlobals ads).river_control := by
      unfold wireListeners
      by_cases hseat : (discoverGlobals ads).seat.isSome <;> simp [hseat]
    have hrc : (ServiceOp.step ServiceOp.set_ready
        (ServiceOp.step
          (ServiceOp.copy_state (wireListeners (discoverGlobals ads)))
          svc0)).river_control = (discoverGlobals ads).river_control := by
      simp [ServiceOp.step, hwire]
    refine ⟨_, ?_, rfl, hrc, ?_⟩
    · simp [_river_connection_task, h]
    · intro hctl run events command args hasCallback
      have hnone := hrc.trans hctl
      simp [run_command, hnone]

/-- Witness for C7: a discovery stream advertising only the control
interface fails the session cleanly; one advertising only the status
manager leaves it running. -/
theorem C7_status_manager_required_witness :
    (discoverGlobals [⟨1, "zriver_control_v1", 1⟩]).river_status_mgr =
      none ∧
    _river_connection_task RiverService.construct
      [⟨1, "zriver_control_v1", 1⟩] = SessionResult.failed_no_status_mgr ∧
    (discoverGlobals [⟨3, "zriver_status_manager_v1", 1⟩]).river_status_mgr
      = some 3 ∧
    _river_connection_task RiverService.construct
      [⟨3, "zriver_status_manager_v1", 1⟩] ≠
      SessionResult.failed_no_status_mgr := by
  refine ⟨rfl,
    (C7_status_manager_required [⟨1, "zriver_control_v1", 1⟩]
      RiverService.construct).1 rfl, rfl, ?_⟩
  obtain ⟨svc, htask, -, -, -⟩ :=
    (C7_status_manager_required [⟨3, "zriver_status_manager_v1", 1⟩]
      RiverService.construct).2 3 rfl
  rw [htask]
  intro hcon
  exact SessionResult.noConfusion hcon

/-- C8: on a record that exists, each tag handler rewrites only its own
tag field of that record — the other two tag fields and the remaining
fields come through from the old record — and the record under every
other key is untouched. -/
theorem C8_tag_independence (s : RegistryState) (oid : Nat)
    (info : OutputInfo) (tags : Bitfields)
    (h : s.outputs oid = some info) :
    (∃ sv ev, make_view_tags_handler oid s tags = some (sv, ev) ∧
      sv.outputs oid = some ⟨info.name, info.output, info.status,
        _decode_bitfields tags, info.tags_focused, info.tags_urgent⟩ ∧
      ∀ m, m ≠ oid → sv.outputs m = s.outputs m) ∧
    (∃ sf ev, make_focused_tags_handler oid s tags = some (sf, ev) ∧
      sf.outputs oid = some ⟨info.name, info.output, info.status,
        info.tags_view, _decode_bitfields tags, info.tags_urgent⟩ ∧
      ∀ m, m ≠ oid → sf.outputs m = s.outputs m) ∧
    (∃ su ev, make_urgent_tags_handler oid s tags = some (su, ev) ∧
      su.outputs oid = some ⟨info.name, info.output, info.status,
        info.tags_view, info.tags_focused, _decode_bitfields tags⟩ ∧
      ∀ m, m ≠ oid → su.outputs m = s.outputs m) := by
  refine ⟨?_, ?_, ?_⟩
  · simp only [make_view_tags_handler, h]
    refine ⟨_, _, rfl, ?_, ?_⟩
    · simp [RegistryState.setOutput]
    · intro m hm
      simp [RegistryState.setOutput, hm]
  · simp only [make_focused_tags_handler, h]
    refine ⟨_, _, rfl, ?_, ?_⟩
    · simp [RegistryState.setOutput]
    · intro m hm
      simp [RegistryState.setOutput, hm]
  · simp only [make_urgent_tags_handler, h]
    refine ⟨_, _, rfl, ?_, ?_⟩
    · simp [RegistryState.setOutput]
    · intro m hm
      simp [RegistryState.setOutput, hm]

/-- Witness for C8 at the one-output registry and payload `0b1011`. -/
theorem C8_tag_independence_witness :
    regOneOutput.outputs 7 = some ⟨7, 7, none, [], [], []⟩ ∧
    (make_view_tags_handler 7 regOneOutput (.single 11)).isSome = true ∧
    (make_focused_tags_handler 7 regOneOutput (.single 11)).isSome = true ∧
    (make_urgent_tags_handler 7 regOneOutput (.single 11)).isSome = true := by
  obtain ⟨⟨sv, ev1, h1, -, -⟩, ⟨sf, ev2, h2, -, -⟩, ⟨su, ev3, h3, -, -⟩⟩ :=
    C8_tag_independence regOneOutput 7 ⟨7, 7, none, [], [], []⟩
      (.single 11) rfl
  exact ⟨rfl, by rw [h1]; rfl, by rw [h2]; rfl, by rw [h3]; rfl⟩

end RiverModel
